import Mathlib

/-!
# Verification of the Wormhole guest-program core

A shallow embedding of `crates/program-core/src/lib.rs` (the function
`execute_wormhole_program` and its data types) and of
`crates/alloy-wormhole/src/secret.rs` / `constants.rs`.

Modelling conventions:
* byte strings are `List Nat` (each element a byte value);
* 256-bit unsigned integers (`U256`) are `Nat`; overflow of `checked_add`
  is modelled explicitly against `2 ^ 256`;
* the external cryptographic and trie primitives (SHA-256, Keccak-256,
  `alloy_trie::proof::verify_proof`, the RLP decoders of `TrieNode` and
  `TrieAccount`, and the RLP encoder of `TrieAccount`) live in external
  crates, not in this repository; they are abstracted as fields of a
  `Primitives` structure, and the theorems quantify over it.  SHA-256 is
  required to produce 32 bytes (each below 256), which is the only
  property of the primitives the program logic relies on;
* Rust panics (`panic!` and `Option::unwrap` on `None`) are modelled as an
  explicit third outcome `ProgResult.panic` distinct from `Ok`/`Err`.
-/

namespace Wormhole

/-- `MAGIC_ADDRESS` from `constants.rs`: salt byte for the burn address. -/
def MAGIC_ADDRESS : Nat := 0xfe

/-- `MAGIC_NULLIFIER` from `constants.rs`: salt byte for nullifiers. -/
def MAGIC_NULLIFIER : Nat := 0x01

/-- `MAGIC_POW` from `constants.rs`: salt byte for the proof-of-work. -/
def MAGIC_POW : Nat := 0x02

/-- `POW_DIFFICULTY_U256` from `constants.rs`: `0x1000000 = 2 ^ 24`. -/
def POW_DIFFICULTY_U256 : Nat := 0x1000000

/-- Little-endian byte encoding of `k` on `n` bytes
(the in-memory layout `U256::as_le_slice` exposes, for `n = 32`). -/
def leBytes : Nat → Nat → List Nat
  | 0, _ => []
  | n + 1, k => k % 256 :: leBytes n (k / 256)

/-- Big-endian byte encoding of `k` on `n` bytes (`U256::to_be_bytes`). -/
def beBytes (n k : Nat) : List Nat := (leBytes n k).reverse

/-- `U256::from_be_bytes`: interpret a byte string as a big-endian number. -/
def from_be_bytes (bs : List Nat) : Nat :=
  bs.foldl (fun acc b => acc * 256 + b) 0

/-- `U256::checked_add`: `none` iff the sum does not fit in 256 bits. -/
def checked_add (a b : Nat) : Option Nat :=
  if a + b < 2 ^ 256 then some (a + b) else none

/-- `alloy_trie::Nibbles::unpack`: split each byte into
high and low nibble, high first. -/
def nibbles_unpack (bs : List Nat) : List Nat :=
  bs.flatMap fun b => [b / 16, b % 16]

/-- `EMPTY_ROOT`: `keccak256(rlp(""))`, the storage root of an account with
empty storage (constant `alloy_trie::EMPTY_ROOT_HASH`). -/
def EMPTY_ROOT : List Nat :=
  [0x56, 0xe8, 0x1f, 0x17, 0x1b, 0xcc, 0x55, 0xa6,
   0xff, 0x83, 0x45, 0xe6, 0x92, 0xc0, 0xf8, 0x6e,
   0x5b, 0x48, 0xe0, 0x1b, 0x99, 0x6c, 0xad, 0xc0,
   0x01, 0x62, 0x2f, 0xb5, 0xe3, 0x63, 0xb4, 0x21]

/-- `EMPTY_CODE_HASH`: `keccak256("")`, the code hash of an account with no
code (constant `alloy_primitives::KECCAK_EMPTY`). -/
def EMPTY_CODE_HASH : List Nat :=
  [0xc5, 0xd2, 0x46, 0x01, 0x86, 0xf7, 0x23, 0x3c,
   0x92, 0x7e, 0x7d, 0xb2, 0xdc, 0xc7, 0x03, 0xc0,
   0xe5, 0x00, 0xb6, 0x53, 0xca, 0x82, 0x27, 0x3b,
   0x7b, 0xfa, 0xd8, 0x04, 0x5d, 0x85, 0xa4, 0x70]

/-- `alloy_trie::TrieAccount`: the Ethereum account record
(nonce, balance, storage root, code hash). -/
structure TrieAccount where
  nonce : Nat
  balance : Nat
  storage_root : List Nat
  code_hash : List Nat
  deriving DecidableEq

/-- `TrieAccount::default()`: zero nonce and balance, empty storage root,
empty code hash. -/
def defaultTrieAccount : TrieAccount :=
  { nonce := 0, balance := 0,
    storage_root := EMPTY_ROOT, code_hash := EMPTY_CODE_HASH }

/-- `alloy_trie::nodes::TrieNode`: the four node shapes of the
Merkle-Patricia trie codec. Only the discrimination between `Leaf` and the
other shapes, and the leaf's `value`, matter to the executor. -/
inductive TrieNode where
  | EmptyRoot : TrieNode
  | Branch (children : List (Option (List Nat))) (value : Option (List Nat)) : TrieNode
  | Extension (key : List Nat) (child : List Nat) : TrieNode
  | Leaf (key : List Nat) (value : List Nat) : TrieNode
  deriving DecidableEq

/-- Whether a trie node is a `Leaf` (the shape required of the terminal node
of the nullifier account proof). -/
def TrieNode.isLeaf : TrieNode → Bool
  | .Leaf _ _ => true
  | _ => false

/-- `alloy_trie::proof::ProofVerificationError`, kept opaque: the executor
only forwards it. -/
structure ProofVerificationError where
  code : Nat
  deriving DecidableEq

/-- `alloy_rlp::Error`, kept opaque: the executor only forwards it. -/
structure RlpError where
  code : Nat
  deriving DecidableEq

/-- The external primitives used by the program: hashes, MPT proof
verification and the RLP codec entry points. These live in the `sha2`,
`alloy_primitives`, `alloy_trie` and `alloy_rlp` crates; the program logic
is parametric in them. SHA-256 output is 32 bytes, each below 256. -/
structure Primitives where
  sha256 : List Nat → List Nat
  keccak256 : List Nat → List Nat
  verify_proof : List Nat → List Nat → Option (List Nat) → List (List Nat) →
    Except ProofVerificationError Unit
  trieNode_decode : List Nat → Except RlpError TrieNode
  trieAccount_decode : List Nat → Except RlpError TrieAccount
  rlp_encode_account : TrieAccount → List Nat
  sha256_length : ∀ bs, (sha256 bs).length = 32
  sha256_bytes : ∀ bs, ∀ x ∈ sha256 bs, x < 256

/-- `proof_of_work_secret_hash` from `secret.rs`:
`sha256(MAGIC_POW ++ secret)`. -/
def proof_of_work_secret_hash (P : Primitives) (secret : List Nat) : List Nat :=
  P.sha256 (MAGIC_POW :: secret)

/-- `is_valid_wormhole_secret` from `secret.rs`:
`sha256(MAGIC_POW ++ secret)` read big-endian is divisible by
`POW_DIFFICULTY_U256 = 2 ^ 24`. -/
def is_valid_wormhole_secret (P : Primitives) (secret : List Nat) : Bool :=
  from_be_bytes (proof_of_work_secret_hash P secret) % POW_DIFFICULTY_U256 == 0

/-- `WormholeSecret::burn_address` from `secret.rs`:
`sha256(MAGIC_ADDRESS ++ secret)[12..]`, the low 20 bytes of the hash. -/
def burn_address (P : Primitives) (secret : List Nat) : List Nat :=
  (P.sha256 (MAGIC_ADDRESS :: secret)).drop 12

/-- `WormholeSecret::nullifier` from `secret.rs`:
`sha256(MAGIC_NULLIFIER ++ secret ++ index_le32)`. -/
def nullifier (P : Primitives) (secret : List Nat) (index : Nat) : List Nat :=
  P.sha256 (MAGIC_NULLIFIER :: (secret ++ leBytes 32 index))

/-- `TryFrom<Bytes> for WormholeSecret` from `secret.rs`: wrap the bytes,
`Ok` iff the proof-of-work holds, the wrapped bytes unchanged either way. -/
def wormholeSecret_try_from (P : Primitives) (value : List Nat) :
    Except (List Nat) (List Nat) :=
  if is_valid_wormhole_secret P value then Except.ok value else Except.error value

/-- `alloy_rlp::encode_fixed_size` applied to a 32-byte fixed-size array
(`B256`): the RLP string header `0x80 + 32 = 0xa0` followed by the bytes. -/
def encode_fixed_size_b256 (bs : List Nat) : List Nat := 0xa0 :: bs

/-- `WormholeProgramInput` from `program-core/src/lib.rs`. -/
structure WormholeProgramInput where
  secret : List Nat
  deposit_amount : Nat
  withdraw_amount : Nat
  cumulative_withdrawn_amount : Nat
  withdrawal_index : Nat
  state_root : List Nat
  deposit_account_proof : List (List Nat)
  nullifier_address : List Nat
  nullifier_account_proof : List (List Nat)
  previous_nullifier_storage_proof : List (List Nat)
  deriving DecidableEq

/-- `WormholeProgramOutput` from `program-core/src/lib.rs`. -/
structure WormholeProgramOutput where
  nullifier_address : List Nat
  state_root : List Nat
  withdraw_amount : Nat
  current_nullifier : List Nat
  cumulative_withdrawn_amount_hashed : List Nat
  deriving DecidableEq

/-- `WormholeProgramError` from `program-core/src/lib.rs`: exactly the five
variants of the source enum. -/
inductive WormholeProgramError where
  | InvalidSecret
  | InvalidWithdrawAmount
  | NullifierAccountMissing
  | Rlp (e : RlpError)
  | Proof (e : ProofVerificationError)
  deriving DecidableEq

/-- The panic sites of `execute_wormhole_program`, identified by source
location: the two explicit `panic!` calls of the first-withdrawal
consistency check (lines 60 and 64) and the `Option::unwrap` on the last
element of `nullifier_account_proof` (line 85). -/
inductive PanicMsg where
  | cumulativeNonzeroOnFirstWithdrawal
  | storageProofNonemptyOnFirstWithdrawal
  | unwrapNoneOnEmptyNullifierAccountProof
  deriving DecidableEq

/-- The observable outcome of running `execute_wormhole_program`: a normal
`Ok`, a normal `Err`, or a Rust panic. -/
inductive ProgResult where
  | ok (output : WormholeProgramOutput)
  | err (e : WormholeProgramError)
  | panic (msg : PanicMsg)
  deriving DecidableEq

/-- Whether a program outcome is a normally returned `Err` value. -/
def ProgResult.isErr : ProgResult → Bool
  | .err _ => true
  | _ => false

/-- The output record built at the end of `execute_wormhole_program`
(lines 117-127): echo `nullifier_address`, `state_root` and
`withdraw_amount`, commit the current nullifier and the hashed cumulative
withdrawn amount. -/
def makeOutput (P : Primitives) (input : WormholeProgramInput)
    (cumulative_withdrawn_amount_hashed : List Nat) : WormholeProgramOutput :=
  { nullifier_address := input.nullifier_address
    state_root := input.state_root
    withdraw_amount := input.withdraw_amount
    current_nullifier := nullifier P input.secret input.withdrawal_index
    cumulative_withdrawn_amount_hashed := cumulative_withdrawn_amount_hashed }

/-- Step 6 of `execute_wormhole_program` (lines 101-127): hash the
cumulative withdrawn amount; when `withdrawal_index` is nonzero verify the
previous nullifier's inclusion in the nullifier account's storage trie;
then build the output. -/
def executeStorageCheck (P : Primitives) (input : WormholeProgramInput)
    (nullifier_account : TrieAccount) : ProgResult :=
  let cumulative_withdrawn_amount_hashed :=
    P.keccak256 (beBytes 32 input.cumulative_withdrawn_amount)
  if input.withdrawal_index ≠ 0 then
    let previous_withdrawal_index := input.withdrawal_index - 1
    let previous_nullifier := nullifier P input.secret previous_withdrawal_index
    let previous_nullifier_nibbles := nibbles_unpack (P.keccak256 previous_nullifier)
    let expected := encode_fixed_size_b256 cumulative_withdrawn_amount_hashed
    match P.verify_proof nullifier_account.storage_root previous_nullifier_nibbles
        (some expected) input.previous_nullifier_storage_proof with
    | Except.error e => ProgResult.err (WormholeProgramError.Proof e)
    | Except.ok _ => ProgResult.ok (makeOutput P input cumulative_withdrawn_amount_hashed)
  else
    ProgResult.ok (makeOutput P input cumulative_withdrawn_amount_hashed)

/-- Step 5 of `execute_wormhole_program` (lines 82-99): unwrap the last
node of `nullifier_account_proof` (a panic when the list is empty),
RLP-decode it, require a `Leaf`, RLP-decode the leaf value into a
`TrieAccount`, and verify the full proof against `state_root` with the
leaf value as expected value. -/
def executeNullifierChecks (P : Primitives) (input : WormholeProgramInput) : ProgResult :=
  let nullifier_address_nibbles := nibbles_unpack (P.keccak256 input.nullifier_address)
  match input.nullifier_account_proof.getLast? with
  | none => ProgResult.panic PanicMsg.unwrapNoneOnEmptyNullifierAccountProof
  | some last_node_encoded =>
    match P.trieNode_decode last_node_encoded with
    | Except.error e => ProgResult.err (WormholeProgramError.Rlp e)
    | Except.ok node =>
      match node with
      | TrieNode.Leaf _key value =>
        match P.trieAccount_decode value with
        | Except.error e => ProgResult.err (WormholeProgramError.Rlp e)
        | Except.ok nullifier_account =>
          match P.verify_proof input.state_root nullifier_address_nibbles
              (some value) input.nullifier_account_proof with
          | Except.error e => ProgResult.err (WormholeProgramError.Proof e)
          | Except.ok _ => executeStorageCheck P input nullifier_account
      | _ => ProgResult.err WormholeProgramError.NullifierAccountMissing

/-- Step 4 of `execute_wormhole_program` (lines 68-80): verify the deposit
account proof against `state_root`, keyed by the keccak of the burn
address, with expected value the RLP encoding of a default `TrieAccount`
whose balance is `deposit_amount`. -/
def executeProofChecks (P : Primitives) (input : WormholeProgramInput) : ProgResult :=
  let deposit_address := burn_address P input.secret
  let deposit_address_nibbles := nibbles_unpack (P.keccak256 deposit_address)
  let expected := P.rlp_encode_account
    { defaultTrieAccount with balance := input.deposit_amount }
  match P.verify_proof input.state_root deposit_address_nibbles
      (some expected) input.deposit_account_proof with
  | Except.error e => ProgResult.err (WormholeProgramError.Proof e)
  | Except.ok _ => executeNullifierChecks P input

/-- `execute_wormhole_program` from `program-core/src/lib.rs`
(lines 37-128): secret validity, amount validation with checked addition,
first-withdrawal consistency (two `panic!` sites), then the three proof
checks and the output. -/
def execute_wormhole_program (P : Primitives) (input : WormholeProgramInput) : ProgResult :=
  if is_valid_wormhole_secret P input.secret = true then
    if input.withdraw_amount = 0 then
      ProgResult.err WormholeProgramError.InvalidWithdrawAmount
    else
      match checked_add input.withdraw_amount input.cumulative_withdrawn_amount with
      | none => ProgResult.err WormholeProgramError.InvalidWithdrawAmount
      | some next_cumulative_withdrawn_amount =>
        if input.deposit_amount < next_cumulative_withdrawn_amount then
          ProgResult.err WormholeProgramError.InvalidWithdrawAmount
        else if input.withdrawal_index = 0 ∧ input.cumulative_withdrawn_amount ≠ 0 then
          ProgResult.panic PanicMsg.cumulativeNonzeroOnFirstWithdrawal
        else if input.withdrawal_index = 0 ∧ input.previous_nullifier_storage_proof ≠ [] then
          ProgResult.panic PanicMsg.storageProofNonemptyOnFirstWithdrawal
        else
          executeProofChecks P input
  else
    ProgResult.err WormholeProgramError.InvalidSecret

/-! ## Concrete primitive instantiations

Used to evaluate the program on concrete inputs. The hash functions are
stand-ins satisfying the length and byte-range requirements; the trie
primitives cover the passing, failing and non-leaf behaviours. -/

/-- A stand-in 32-byte hash: all bytes zero. Under it every secret passes
the proof-of-work check. -/
def zeroHash : List Nat → List Nat := fun _ => List.replicate 32 0

/-- Primitives whose hashes return 32 zero bytes and whose trie
primitives all succeed (proof verification accepts, the terminal node
decodes to a leaf). -/
def trivialPrims : Primitives where
  sha256 := zeroHash
  keccak256 := zeroHash
  verify_proof := fun _ _ _ _ => Except.ok ()
  trieNode_decode := fun _ => Except.ok (TrieNode.Leaf [] [])
  trieAccount_decode := fun _ => Except.ok defaultTrieAccount
  rlp_encode_account := fun _ => []
  sha256_length := fun _ => List.length_replicate 32 0
  sha256_bytes := fun _ x hx => by
    have hx0 := List.eq_of_mem_replicate hx
    omega

/-- Same as `trivialPrims` except every proof verification fails with
error code 7. -/
def failPrims : Primitives :=
  { trivialPrims with verify_proof := fun _ _ _ _ => Except.error ⟨7⟩ }

/-- Same as `trivialPrims` except the trie-node decoder returns a
`Branch`, so the terminal node of the nullifier account proof is not a
leaf. -/
def branchPrims : Primitives :=
  { trivialPrims with trieNode_decode := fun _ => Except.ok (TrieNode.Branch [] none) }

/-- Same as `trivialPrims` except SHA-256 returns 32 bytes all equal to 1,
so no secret passes the proof-of-work check. -/
def onesPrims : Primitives where
  sha256 := fun _ => List.replicate 32 1
  keccak256 := zeroHash
  verify_proof := fun _ _ _ _ => Except.ok ()
  trieNode_decode := fun _ => Except.ok (TrieNode.Leaf [] [])
  trieAccount_decode := fun _ => Except.ok defaultTrieAccount
  rlp_encode_account := fun _ => []
  sha256_length := fun _ => List.length_replicate 32 1
  sha256_bytes := fun _ x hx => by
    have hx1 := List.eq_of_mem_replicate hx
    omega

/-- A concrete input: first withdrawal of 3 out of a deposit of 5. -/
def sampleInput : WormholeProgramInput :=
  { secret := []
    deposit_amount := 5
    withdraw_amount := 3
    cumulative_withdrawn_amount := 0
    withdrawal_index := 0
    state_root := List.replicate 32 0
    deposit_account_proof := [[0]]
    nullifier_address := List.replicate 20 0
    nullifier_account_proof := [[0]]
    previous_nullifier_storage_proof := [] }

/-- A concrete input: second withdrawal (index 1) of 3 after a cumulative
1 out of a deposit of 5. -/
def sampleInputIdx1 : WormholeProgramInput :=
  { sampleInput with
    withdrawal_index := 1
    cumulative_withdrawn_amount := 1
    previous_nullifier_storage_proof := [[0]] }

/-- A concrete input violating the first-withdrawal shape:
`withdrawal_index = 0` with nonzero cumulative withdrawn amount. -/
def inconsistentFirstInput : WormholeProgramInput :=
  { sampleInput with
    deposit_amount := 2
    withdraw_amount := 1
    cumulative_withdrawn_amount := 1 }

/-- A concrete input with an empty nullifier account proof. -/
def emptyNullifierProofInput : WormholeProgramInput :=
  { sampleInput with nullifier_account_proof := [] }

/-- The output of the successful run on `sampleInput` with
`trivialPrims`. -/
def sampleOutput : WormholeProgramOutput :=
  makeOutput trivialPrims sampleInput (List.replicate 32 0)

/-- The output of the successful run on `sampleInputIdx1` with
`trivialPrims`. -/
def sampleOutputIdx1 : WormholeProgramOutput :=
  makeOutput trivialPrims sampleInputIdx1 (List.replicate 32 0)

example : execute_wormhole_program trivialPrims sampleInput = ProgResult.ok sampleOutput := by
  decide

example : execute_wormhole_program trivialPrims sampleInputIdx1 =
    ProgResult.ok sampleOutputIdx1 := by decide

example : execute_wormhole_program trivialPrims inconsistentFirstInput =
    ProgResult.panic PanicMsg.cumulativeNonzeroOnFirstWithdrawal := by decide

example : execute_wormhole_program trivialPrims emptyNullifierProofInput =
    ProgResult.panic PanicMsg.unwrapNoneOnEmptyNullifierAccountProof := by decide

example : execute_wormhole_program failPrims sampleInput =
    ProgResult.err (WormholeProgramError.Proof ⟨7⟩) := by decide

example : execute_wormhole_program branchPrims sampleInput =
    ProgResult.err WormholeProgramError.NullifierAccountMissing := by decide

example : execute_wormhole_program onesPrims sampleInput =
    ProgResult.err WormholeProgramError.InvalidSecret := by decide

/-! ## Helper lemmas -/

theorem foldl_be_init (ys : List Nat) : ∀ init : Nat,
    List.foldl (fun acc b => acc * 256 + b) init ys =
      init * 256 ^ ys.length + List.foldl (fun acc b => acc * 256 + b) 0 ys := by
  induction ys with
  | nil => intro init; simp
  | cons b ys ih =>
    intro init
    simp only [List.foldl_cons, List.length_cons]
    rw [ih (init * 256 + b), ih (0 * 256 + b)]
    ring

theorem from_be_bytes_append (xs ys : List Nat) :
    from_be_bytes (xs ++ ys) =
      from_be_bytes xs * 256 ^ ys.length + from_be_bytes ys := by
  simp only [from_be_bytes, List.foldl_append]
  exact foldl_be_init ys (List.foldl (fun acc b => acc * 256 + b) 0 xs)

theorem from_be_bytes_lt (ys : List Nat) (h : ∀ x ∈ ys, x < 256) :
    from_be_bytes ys < 256 ^ ys.length := by
  induction ys with
  | nil => simp [from_be_bytes]
  | cons b ys ih =>
    have hb : b < 256 := h b (List.mem_cons_self b ys)
    have hys : from_be_bytes ys < 256 ^ ys.length :=
      ih fun x hx => h x (List.mem_cons_of_mem b hx)
    have hsplit : from_be_bytes (b :: ys) =
        from_be_bytes [b] * 256 ^ ys.length + from_be_bytes ys :=
      from_be_bytes_append [b] ys
    have hone : from_be_bytes [b] = b := by simp [from_be_bytes]
    rw [hsplit, hone, List.length_cons, pow_succ]
    calc b * 256 ^ ys.length + from_be_bytes ys
        < b * 256 ^ ys.length + 256 ^ ys.length := by omega
      _ = (b + 1) * 256 ^ ys.length := by ring
      _ ≤ 256 * 256 ^ ys.length := by
          exact Nat.mul_le_mul_right _ (by omega)
      _ = 256 ^ ys.length * 256 := by ring

/-- If the secret and amount checks and the first-withdrawal shape check
all pass, execution reduces to the proof-verification phase. -/
theorem execute_reaches_proofChecks (P : Primitives) (input : WormholeProgramInput)
    (hsecret : is_valid_wormhole_secret P input.secret = true)
    (hw : input.withdraw_amount ≠ 0)
    (hadd : input.withdraw_amount + input.cumulative_withdrawn_amount < 2 ^ 256)
    (hle : input.withdraw_amount + input.cumulative_withdrawn_amount ≤ input.deposit_amount)
    (hfirst : input.withdrawal_index = 0 →
      input.cumulative_withdrawn_amount = 0 ∧ input.previous_nullifier_storage_proof = []) :
    execute_wormhole_program P input = executeProofChecks P input := by
  have hca : checked_add input.withdraw_amount input.cumulative_withdrawn_amount =
      some (input.withdraw_amount + input.cumulative_withdrawn_amount) := by
    unfold checked_add
    rw [if_pos hadd]
  simp only [execute_wormhole_program, hca]
  rw [if_pos hsecret, if_neg hw, if_neg (not_lt.mpr hle)]
  rw [if_neg (by intro hc; exact hc.2 (hfirst hc.1).1)]
  rw [if_neg (by intro hc; exact hc.2 (hfirst hc.1).2)]

/-- Success inversion: a normal `Ok` outcome pins down every intermediate
step of the proof-verification phase and the shape of the output. -/
theorem execute_ok_inv (P : Primitives) (input : WormholeProgramInput)
    (out : WormholeProgramOutput)
    (h : execute_wormhole_program P input = ProgResult.ok out) :
    ∃ last_node_encoded leaf_key leaf_value nullifier_account,
      input.nullifier_account_proof.getLast? = some last_node_encoded ∧
      P.trieNode_decode last_node_encoded =
        Except.ok (TrieNode.Leaf leaf_key leaf_value) ∧
      P.trieAccount_decode leaf_value = Except.ok nullifier_account ∧
      P.verify_proof input.state_root
        (nibbles_unpack (P.keccak256 (burn_address P input.secret)))
        (some (P.rlp_encode_account
          { defaultTrieAccount with balance := input.deposit_amount }))
        input.deposit_account_proof = Except.ok () ∧
      P.verify_proof input.state_root
        (nibbles_unpack (P.keccak256 input.nullifier_address))
        (some leaf_value) input.nullifier_account_proof = Except.ok () ∧
      (input.withdrawal_index ≠ 0 →
        P.verify_proof nullifier_account.storage_root
          (nibbles_unpack (P.keccak256
            (nullifier P input.secret (input.withdrawal_index - 1))))
          (some (encode_fixed_size_b256
            (P.keccak256 (beBytes 32 input.cumulative_withdrawn_amount))))
          input.previous_nullifier_storage_proof = Except.ok ()) ∧
      out = makeOutput P input
        (P.keccak256 (beBytes 32 input.cumulative_withdrawn_amount)) := by
  simp only [execute_wormhole_program] at h
  split at h
  case isFalse => exact absurd h (by simp)
  case isTrue hsecret =>
  split at h
  case isTrue => exact absurd h (by simp)
  case isFalse hw =>
  split at h
  case h_1 => exact absurd h (by simp)
  case h_2 next hca =>
  split at h
  case isTrue => exact absurd h (by simp)
  case isFalse hdep =>
  split at h
  case isTrue => exact absurd h (by simp)
  case isFalse hc1 =>
  split at h
  case isTrue => exact absurd h (by simp)
  case isFalse hc2 =>
  simp only [executeProofChecks] at h
  split at h
  case h_1 => exact absurd h (by simp)
  case h_2 u hdepositok =>
  simp only [executeNullifierChecks] at h
  split at h
  case h_1 => exact absurd h (by simp)
  case h_2 last_node_encoded hlast =>
  split at h
  case h_1 => exact absurd h (by simp)
  case h_2 node hnode =>
  split at h
  case h_2 => exact absurd h (by simp)
  case h_1 leaf_key leaf_value =>
  split at h
  case h_1 => exact absurd h (by simp)
  case h_2 nullifier_account haccount =>
  split at h
  case h_1 => exact absurd h (by simp)
  case h_2 u' hnullok =>
  simp only [executeStorageCheck] at h
  refine ⟨last_node_encoded, leaf_key, leaf_value, nullifier_account,
    hlast, hnode, haccount, ?_, ?_, ?_, ?_⟩
  · cases u; exact hdepositok
  · cases u'; exact hnullok
  · intro hidx
    rw [if_pos hidx] at h
    split at h
    case h_1 => exact absurd h (by simp)
    case h_2 u'' hstorageok =>
    cases u''; exact hstorageok
  · split at h
    case isTrue hidx =>
      split at h
      case h_1 => exact absurd h (by simp)
      case h_2 =>
        injection h with h'
        exact h'.symm
    case isFalse hidx =>
      injection h with h'
      exact h'.symm

/-! ## Claim theorems -/

/-- Claim C1: `execute_wormhole_program` returns `Ok` only if
`withdraw_amount > 0`, the 256-bit addition
`withdraw_amount + cumulative_withdrawn_amount` does not overflow, and the
sum is at most `deposit_amount`; and when the secret is valid and any of
the three conditions fails it returns `Err(InvalidWithdrawAmount)`. -/
theorem C1_amount_soundness (P : Primitives) (input : WormholeProgramInput) :
    (∀ out, execute_wormhole_program P input = ProgResult.ok out →
      0 < input.withdraw_amount ∧
      input.withdraw_amount + input.cumulative_withdrawn_amount < 2 ^ 256 ∧
      input.withdraw_amount + input.cumulative_withdrawn_amount ≤ input.deposit_amount) ∧
    (is_valid_wormhole_secret P input.secret = true →
      (input.withdraw_amount = 0 ∨
        2 ^ 256 ≤ input.withdraw_amount + input.cumulative_withdrawn_amount ∨
        input.deposit_amount < input.withdraw_amount + input.cumulative_withdrawn_amount) →
      execute_wormhole_program P input =
        ProgResult.err WormholeProgramError.InvalidWithdrawAmount) := by
  constructor
  · intro out h
    simp only [execute_wormhole_program] at h
    split at h
    case isFalse => exact absurd h (by simp)
    case isTrue hsecret =>
    split at h
    case isTrue => exact absurd h (by simp)
    case isFalse hw =>
    split at h
    case h_1 => exact absurd h (by simp)
    case h_2 next hca =>
    unfold checked_add at hca
    split at hca
    case isFalse => exact absurd hca (by simp)
    case isTrue h256 =>
    injection hca with hca'
    split at h
    case isTrue => exact absurd h (by simp)
    case isFalse hdep =>
    subst hca'
    exact ⟨by omega, h256, by omega⟩
  · intro hsecret hdisj
    simp only [execute_wormhole_program]
    rw [if_pos hsecret]
    by_cases hw : input.withdraw_amount = 0
    · rw [if_pos hw]
    · rw [if_neg hw]
      by_cases h256 :
          input.withdraw_amount + input.cumulative_withdrawn_amount < 2 ^ 256
      · have hca : checked_add input.withdraw_amount
            input.cumulative_withdrawn_amount =
            some (input.withdraw_amount + input.cumulative_withdrawn_amount) := by
          unfold checked_add
          rw [if_pos h256]
        have hlt : input.deposit_amount <
            input.withdraw_amount + input.cumulative_withdrawn_amount := by
          rcases hdisj with h0 | hov | hlt
          · exact absurd h0 hw
          · omega
          · exact hlt
        simp only [hca]
        rw [if_pos hlt]
      · have hca : checked_add input.withdraw_amount
            input.cumulative_withdrawn_amount = none := by
          unfold checked_add
          rw [if_neg h256]
        simp only [hca]

/-- Witness for C1: with the all-accepting primitives and a zero
withdrawal amount the executor returns `InvalidWithdrawAmount`. -/
theorem C1_amount_soundness_witness :
    execute_wormhole_program trivialPrims { sampleInput with withdraw_amount := 0 } =
      ProgResult.err WormholeProgramError.InvalidWithdrawAmount :=
  (C1_amount_soundness trivialPrims { sampleInput with withdraw_amount := 0 }).2
    (by decide) (Or.inl rfl)

/-- Claim C5: `nullifier(secret, i)` is
`SHA256(0x01 ++ secret ++ i_le32)`, and on success the output's
`current_nullifier` is `SHA256(0x01 ++ secret ++ LE32(withdrawal_index))`. -/
theorem C5_nullifier_determinism (P : Primitives) (s : List Nat) (i : Nat)
    (input : WormholeProgramInput) (out : WormholeProgramOutput) :
    nullifier P s i = P.sha256 (0x01 :: (s ++ leBytes 32 i)) ∧
    (execute_wormhole_program P input = ProgResult.ok out →
      out.current_nullifier =
        P.sha256 (0x01 :: (input.secret ++ leBytes 32 input.withdrawal_index))) := by
  constructor
  · rfl
  · intro h
    obtain ⟨_, _, _, _, _, _, _, _, _, _, hout⟩ := execute_ok_inv P input out h
    rw [hout]
    rfl

/-- Witness for C5: the successful run on `sampleInput` commits the
nullifier of index 0. -/
theorem C5_nullifier_determinism_witness :
    sampleOutput.current_nullifier =
      trivialPrims.sha256
        (0x01 :: (sampleInput.secret ++ leBytes 32 sampleInput.withdrawal_index)) :=
  (C5_nullifier_determinism trivialPrims [] 0 sampleInput sampleOutput).2 (by decide)

/-- Claim C7: the proof-of-work check holds iff
`SHA256(0x02 ++ secret)` read as a big-endian 256-bit integer is divisible
by `2 ^ 24`, equivalently iff the last three bytes of the hash are zero. -/
theorem C7_pow_check (P : Primitives) (secret : List Nat) :
    (is_valid_wormhole_secret P secret = true ↔
      from_be_bytes (P.sha256 (0x02 :: secret)) % 2 ^ 24 = 0) ∧
    (is_valid_wormhole_secret P secret = true ↔
      (P.sha256 (0x02 :: secret)).drop 29 = [0, 0, 0]) := by
  have hmagic : MAGIC_POW = 0x02 := rfl
  have hdiff : POW_DIFFICULTY_U256 = 2 ^ 24 := by norm_num [POW_DIFFICULTY_U256]
  have hfirst : is_valid_wormhole_secret P secret = true ↔
      from_be_bytes (P.sha256 (0x02 :: secret)) % 2 ^ 24 = 0 := by
    unfold is_valid_wormhole_secret proof_of_work_secret_hash
    rw [hmagic, hdiff, beq_iff_eq]
  refine ⟨hfirst, hfirst.trans ?_⟩
  have hlen : (P.sha256 (0x02 :: secret)).length = 32 := P.sha256_length _
  have hbytes := P.sha256_bytes (0x02 :: secret)
  set h := P.sha256 (0x02 :: secret) with hh
  have hsplit : h.take 29 ++ h.drop 29 = h := List.take_append_drop 29 h
  have hdlen : (h.drop 29).length = 3 := by
    rw [List.length_drop, hlen]
  have happ : from_be_bytes h =
      from_be_bytes (h.take 29) * 2 ^ 24 + from_be_bytes (h.drop 29) := by
    conv_lhs => rw [← hsplit]
    rw [from_be_bytes_append, hdlen]
    norm_num
  have hlt : from_be_bytes (h.drop 29) < 2 ^ 24 := by
    have := from_be_bytes_lt (h.drop 29)
      (fun x hx => hbytes x (List.mem_of_mem_drop hx))
    rw [hdlen] at this
    omega
  have hmod : from_be_bytes h % 2 ^ 24 = from_be_bytes (h.drop 29) := by
    rw [happ, Nat.mul_comm, Nat.mul_add_mod, Nat.mod_eq_of_lt hlt]
  rw [hmod]
  obtain ⟨a, b, c, habc⟩ := List.length_eq_three.mp hdlen
  rw [habc]
  simp only [from_be_bytes, List.foldl, List.cons.injEq, and_true]
  omega

/-- Witness for C7: the all-zero stand-in hash passes both forms of the
check. -/
theorem C7_pow_check_witness :
    is_valid_wormhole_secret trivialPrims [] = true :=
  (C7_pow_check trivialPrims []).1.mpr (by decide)

/-- Claim C8: on success the output echoes `state_root`,
`withdraw_amount` and `nullifier_address` from the input unchanged. -/
theorem C8_output_echo (P : Primitives) (input : WormholeProgramInput)
    (out : WormholeProgramOutput)
    (h : execute_wormhole_program P input = ProgResult.ok out) :
    out.state_root = input.state_root ∧
    out.withdraw_amount = input.withdraw_amount ∧
    out.nullifier_address = input.nullifier_address := by
  obtain ⟨_, _, _, _, _, _, _, _, _, _, hout⟩ := execute_ok_inv P input out h
  rw [hout]
  exact ⟨rfl, rfl, rfl⟩

/-- Witness for C8: the successful run on `sampleInput` echoes the three
fields. -/
theorem C8_output_echo_witness :
    sampleOutput.state_root = sampleInput.state_root ∧
    sampleOutput.withdraw_amount = sampleInput.withdraw_amount ∧
    sampleOutput.nullifier_address = sampleInput.nullifier_address :=
  C8_output_echo trivialPrims sampleInput sampleOutput (by decide)

/-- Claim C10: `WormholeSecret::try_from(b)` is `Ok` exactly when the
proof-of-work check holds, and in both the `Ok` and the `Err` case the
result wraps exactly the bytes `b` unchanged. -/
theorem C10_try_from (P : Primitives) (b : List Nat) :
    (wormholeSecret_try_from P b = Except.ok b ↔
      is_valid_wormhole_secret P b = true) ∧
    (wormholeSecret_try_from P b = Except.error b ↔
      is_valid_wormhole_secret P b = false) := by
  unfold wormholeSecret_try_from
  by_cases hv : is_valid_wormhole_secret P b = true
  · rw [if_pos hv]
    simp [hv]
  · rw [if_neg hv]
    simp only [Bool.not_eq_true] at hv
    simp [hv]

/-- Witness for C10: checked construction succeeds under a passing hash
and fails under a failing one, returning the same bytes in both cases. -/
theorem C10_try_from_witness :
    wormholeSecret_try_from trivialPrims [] = Except.ok [] ∧
    wormholeSecret_try_from onesPrims [] = Except.error [] :=
  ⟨(C10_try_from trivialPrims []).1.mpr (by decide),
   (C10_try_from onesPrims []).2.mpr (by decide)⟩

/-- Counterexample to C2 as stated: on a concrete input with a valid
secret, valid amounts, `withdrawal_index = 0` and nonzero cumulative
withdrawn amount, the executor does not return any error value — it
panics. (`WormholeProgramError` has no `InconsistentFirstWithdrawal`
variant at all; the source uses `panic!` for this check.) -/
theorem C2_counterexample :
    execute_wormhole_program trivialPrims inconsistentFirstInput =
      ProgResult.panic PanicMsg.cumulativeNonzeroOnFirstWithdrawal ∧
    (execute_wormhole_program trivialPrims inconsistentFirstInput).isErr = false := by
  decide

/-- Claim C2 (amended): for every input with a valid secret and valid
amounts, if `withdrawal_index = 0` and `cumulative_withdrawn_amount ≠ 0`
the executor panics at the first `panic!` site, and if
`withdrawal_index = 0`, `cumulative_withdrawn_amount = 0` and
`previous_nullifier_storage_proof` is non-empty it panics at the second;
no `InconsistentFirstWithdrawal` error value is returned (none exists). -/
theorem C2_first_withdrawal_panics (P : Primitives) (input : WormholeProgramInput)
    (hsecret : is_valid_wormhole_secret P input.secret = true)
    (hw : input.withdraw_amount ≠ 0)
    (hadd : input.withdraw_amount + input.cumulative_withdrawn_amount < 2 ^ 256)
    (hle : input.withdraw_amount + input.cumulative_withdrawn_amount ≤ input.deposit_amount)
    (hidx : input.withdrawal_index = 0) :
    (input.cumulative_withdrawn_amount ≠ 0 →
      execute_wormhole_program P input =
        ProgResult.panic PanicMsg.cumulativeNonzeroOnFirstWithdrawal) ∧
    (input.cumulative_withdrawn_amount = 0 →
      input.previous_nullifier_storage_proof ≠ [] →
      execute_wormhole_program P input =
        ProgResult.panic PanicMsg.storageProofNonemptyOnFirstWithdrawal) := by
  have hca : checked_add input.withdraw_amount input.cumulative_withdrawn_amount =
      some (input.withdraw_amount + input.cumulative_withdrawn_amount) := by
    unfold checked_add
    rw [if_pos hadd]
  constructor
  · intro hc
    simp only [execute_wormhole_program, hca]
    rw [if_pos hsecret, if_neg hw, if_neg (not_lt.mpr hle), if_pos ⟨hidx, hc⟩]
  · intro hc0 hne
    simp only [execute_wormhole_program, hca]
    rw [if_pos hsecret, if_neg hw, if_neg (not_lt.mpr hle)]
    rw [if_neg (by intro hcon; exact hcon.2 hc0)]
    rw [if_pos ⟨hidx, hne⟩]

/-- Witness for the amended C2: a first withdrawal with an unexpected
previous-nullifier storage proof hits the second panic site. -/
theorem C2_first_withdrawal_panics_witness :
    execute_wormhole_program trivialPrims
        { sampleInput with previous_nullifier_storage_proof := [[0]] } =
      ProgResult.panic PanicMsg.storageProofNonemptyOnFirstWithdrawal :=
  (C2_first_withdrawal_panics trivialPrims
    { sampleInput with previous_nullifier_storage_proof := [[0]] }
    (by decide) (by decide) (by decide) (by decide) rfl).2 rfl (by decide)

/-- Claim C9: an input that passes the secret, amount, first-withdrawal
and deposit-proof checks but whose `nullifier_account_proof` is empty
makes the executor panic (the `unwrap` of the final proof element), not
return a `WormholeProgramError`. -/
theorem C9_empty_nullifier_proof_panics (P : Primitives)
    (input : WormholeProgramInput)
    (hsecret : is_valid_wormhole_secret P input.secret = true)
    (hw : input.withdraw_amount ≠ 0)
    (hadd : input.withdraw_amount + input.cumulative_withdrawn_amount < 2 ^ 256)
    (hle : input.withdraw_amount + input.cumulative_withdrawn_amount ≤ input.deposit_amount)
    (hfirst : input.withdrawal_index = 0 →
      input.cumulative_withdrawn_amount = 0 ∧
      input.previous_nullifier_storage_proof = [])
    (hdep : P.verify_proof input.state_root
      (nibbles_unpack (P.keccak256 (burn_address P input.secret)))
      (some (P.rlp_encode_account
        { defaultTrieAccount with balance := input.deposit_amount }))
      input.deposit_account_proof = Except.ok ())
    (hempty : input.nullifier_account_proof = []) :
    execute_wormhole_program P input =
      ProgResult.panic PanicMsg.unwrapNoneOnEmptyNullifierAccountProof := by
  rw [execute_reaches_proofChecks P input hsecret hw hadd hle hfirst]
  simp only [executeProofChecks, hdep]
  simp only [executeNullifierChecks, hempty, List.getLast?_nil]

/-- Witness for C9: the concrete empty-proof input panics. -/
theorem C9_empty_nullifier_proof_panics_witness :
    execute_wormhole_program trivialPrims emptyNullifierProofInput =
      ProgResult.panic PanicMsg.unwrapNoneOnEmptyNullifierAccountProof :=
  C9_empty_nullifier_proof_panics trivialPrims emptyNullifierProofInput
    (by decide) (by decide) (by decide) (by decide)
    (fun _ => ⟨rfl, rfl⟩) rfl rfl

/-- Claim C3: past the secret, amount and first-withdrawal checks, the
deposit account proof is verified against `state_root` with key
`keccak256(burn_address)` — where `burn_address` is bytes 12..32 of
`SHA256(0xfe ++ secret)` — and expected value the RLP encoding of a
`TrieAccount` with balance `deposit_amount`, nonce 0, empty storage root
and empty code hash; a verification failure is returned as a `Proof`
error, and success is necessary for the run to return `Ok`. -/
theorem C3_deposit_proof (P : Primitives) (input : WormholeProgramInput)
    (hsecret : is_valid_wormhole_secret P input.secret = true)
    (hw : input.withdraw_amount ≠ 0)
    (hadd : input.withdraw_amount + input.cumulative_withdrawn_amount < 2 ^ 256)
    (hle : input.withdraw_amount + input.cumulative_withdrawn_amount ≤ input.deposit_amount)
    (hfirst : input.withdrawal_index = 0 →
      input.cumulative_withdrawn_amount = 0 ∧
      input.previous_nullifier_storage_proof = []) :
    (∀ e, P.verify_proof input.state_root
        (nibbles_unpack (P.keccak256 ((P.sha256 (0xfe :: input.secret)).drop 12)))
        (some (P.rlp_encode_account
          { nonce := 0, balance := input.deposit_amount,
            storage_root := EMPTY_ROOT, code_hash := EMPTY_CODE_HASH }))
        input.deposit_account_proof = Except.error e →
      execute_wormhole_program P input =
        ProgResult.err (WormholeProgramError.Proof e)) ∧
    (∀ out, execute_wormhole_program P input = ProgResult.ok out →
      P.verify_proof input.state_root
        (nibbles_unpack (P.keccak256 ((P.sha256 (0xfe :: input.secret)).drop 12)))
        (some (P.rlp_encode_account
          { nonce := 0, balance := input.deposit_amount,
            storage_root := EMPTY_ROOT, code_hash := EMPTY_CODE_HASH }))
        input.deposit_account_proof = Except.ok ()) := by
  have hba : (P.sha256 (0xfe :: input.secret)).drop 12 =
      burn_address P input.secret := rfl
  have hacct : ({ nonce := 0, balance := input.deposit_amount,
                  storage_root := EMPTY_ROOT,
                  code_hash := EMPTY_CODE_HASH } : TrieAccount) =
      ({ defaultTrieAccount with balance := input.deposit_amount } : TrieAccount) := rfl
  constructor
  · intro e he
    rw [hba, hacct] at he
    rw [execute_reaches_proofChecks P input hsecret hw hadd hle hfirst]
    simp only [executeProofChecks, he]
  · intro out hout
    obtain ⟨_, _, _, _, _, _, _, hdep, _, _, _⟩ := execute_ok_inv P input out hout
    rw [hba, hacct]
    exact hdep

/-- Witness for C3: with the all-failing primitives the deposit proof
failure surfaces as a `Proof` error. -/
theorem C3_deposit_proof_witness :
    execute_wormhole_program failPrims sampleInput =
      ProgResult.err (WormholeProgramError.Proof ⟨7⟩) :=
  (C3_deposit_proof failPrims sampleInput
    (by decide) (by decide) (by decide) (by decide)
    (fun _ => ⟨rfl, rfl⟩)).1 ⟨7⟩ rfl

/-- Claim C4: on every success with `withdrawal_index > 0`, the previous
nullifier's inclusion was verified against the decoded nullifier
account's storage root, keyed by
`keccak256(SHA256(0x01 ++ secret ++ LE32(withdrawal_index - 1)))`, with
expected value the 33-byte RLP encoding `0xa0 ++ bytes` of
`keccak256(BE32(cumulative_withdrawn_amount))`, and the output commits
that same hash. -/
theorem C4_previous_nullifier_storage (P : Primitives)
    (input : WormholeProgramInput) (out : WormholeProgramOutput)
    (hidx : input.withdrawal_index ≠ 0)
    (h : execute_wormhole_program P input = ProgResult.ok out) :
    out.cumulative_withdrawn_amount_hashed =
      P.keccak256 (beBytes 32 input.cumulative_withdrawn_amount) ∧
    ∃ last_node_encoded leaf_key leaf_value nullifier_account,
      input.nullifier_account_proof.getLast? = some last_node_encoded ∧
      P.trieNode_decode last_node_encoded =
        Except.ok (TrieNode.Leaf leaf_key leaf_value) ∧
      P.trieAccount_decode leaf_value = Except.ok nullifier_account ∧
      P.verify_proof nullifier_account.storage_root
        (nibbles_unpack (P.keccak256 (P.sha256
          (0x01 :: (input.secret ++ leBytes 32 (input.withdrawal_index - 1))))))
        (some (0xa0 ::
          P.keccak256 (beBytes 32 input.cumulative_withdrawn_amount)))
        input.previous_nullifier_storage_proof = Except.ok () := by
  obtain ⟨last_node_encoded, leaf_key, leaf_value, nullifier_account,
    hlast, hnode, haccount, _, _, hstorage, hout⟩ := execute_ok_inv P input out h
  refine ⟨by rw [hout]; rfl,
    last_node_encoded, leaf_key, leaf_value, nullifier_account,
    hlast, hnode, haccount, ?_⟩
  have hnul : nullifier P input.secret (input.withdrawal_index - 1) =
      P.sha256 (0x01 :: (input.secret ++ leBytes 32 (input.withdrawal_index - 1))) := rfl
  have henc : encode_fixed_size_b256
      (P.keccak256 (beBytes 32 input.cumulative_withdrawn_amount)) =
      0xa0 :: P.keccak256 (beBytes 32 input.cumulative_withdrawn_amount) := rfl
  have hst := hstorage hidx
  rw [hnul, henc] at hst
  exact hst

/-- Witness for C4: the successful second-withdrawal run commits the
keccak of the big-endian cumulative amount. -/
theorem C4_previous_nullifier_storage_witness :
    sampleOutputIdx1.cumulative_withdrawn_amount_hashed =
      trivialPrims.keccak256
        (beBytes 32 sampleInputIdx1.cumulative_withdrawn_amount) :=
  (C4_previous_nullifier_storage trivialPrims sampleInputIdx1 sampleOutputIdx1
    (by decide) (by decide)).1

/-- Claim C6: once the nullifier-registry step is reached with a
non-empty `nullifier_account_proof`, the last proof node is RLP-decoded;
a non-`Leaf` node yields `Err(NullifierAccountMissing)`; for a `Leaf`,
its value is RLP-decoded as a `TrieAccount` (a decode failure propagating
as an `Rlp` error) and the full proof is verified against `state_root`
with key `keccak256(nullifier_address)` and that exact leaf value as the
expected value (a failure propagating as a `Proof` error, success being
necessary for `Ok`). -/
theorem C6_nullifier_account_leaf (P : Primitives) (input : WormholeProgramInput)
    (hsecret : is_valid_wormhole_secret P input.secret = true)
    (hw : input.withdraw_amount ≠ 0)
    (hadd : input.withdraw_amount + input.cumulative_withdrawn_amount < 2 ^ 256)
    (hle : input.withdraw_amount + input.cumulative_withdrawn_amount ≤ input.deposit_amount)
    (hfirst : input.withdrawal_index = 0 →
      input.cumulative_withdrawn_amount = 0 ∧
      input.previous_nullifier_storage_proof = [])
    (hdep : P.verify_proof input.state_root
      (nibbles_unpack (P.keccak256 (burn_address P input.secret)))
      (some (P.rlp_encode_account
        { defaultTrieAccount with balance := input.deposit_amount }))
      input.deposit_account_proof = Except.ok ())
    (hne : input.nullifier_account_proof ≠ []) :
    ∃ last_node_encoded,
      input.nullifier_account_proof.getLast? = some last_node_encoded ∧
      (∀ node, P.trieNode_decode last_node_encoded = Except.ok node →
        node.isLeaf = false →
        execute_wormhole_program P input =
          ProgResult.err WormholeProgramError.NullifierAccountMissing) ∧
      (∀ leaf_key leaf_value,
        P.trieNode_decode last_node_encoded =
          Except.ok (TrieNode.Leaf leaf_key leaf_value) →
        (∀ e, P.trieAccount_decode leaf_value = Except.error e →
          execute_wormhole_program P input =
            ProgResult.err (WormholeProgramError.Rlp e)) ∧
        (∀ nullifier_account,
          P.trieAccount_decode leaf_value = Except.ok nullifier_account →
          (∀ e, P.verify_proof input.state_root
              (nibbles_unpack (P.keccak256 input.nullifier_address))
              (some leaf_value) input.nullifier_account_proof = Except.error e →
            execute_wormhole_program P input =
              ProgResult.err (WormholeProgramError.Proof e)) ∧
          (∀ out, execute_wormhole_program P input = ProgResult.ok out →
            P.verify_proof input.state_root
              (nibbles_unpack (P.keccak256 input.nullifier_address))
              (some leaf_value) input.nullifier_account_proof =
              Except.ok ()))) := by
  have hred : execute_wormhole_program P input = executeNullifierChecks P input := by
    rw [execute_reaches_proofChecks P input hsecret hw hadd hle hfirst]
    simp only [executeProofChecks, hdep]
  cases hL : input.nullifier_account_proof.getLast? with
  | none =>
    exact absurd (List.getLast?_eq_none_iff.mp hL) hne
  | some last_node_encoded =>
    refine ⟨last_node_encoded, rfl, ?_, ?_⟩
    · intro node hnode hnotleaf
      rw [hred]
      cases node with
      | Leaf k v => simp [TrieNode.isLeaf] at hnotleaf
      | EmptyRoot => simp only [executeNullifierChecks, hL, hnode]
      | Branch c v => simp only [executeNullifierChecks, hL, hnode]
      | Extension k c => simp only [executeNullifierChecks, hL, hnode]
    · intro leaf_key leaf_value hnode
      constructor
      · intro e he
        rw [hred]
        simp only [executeNullifierChecks, hL, hnode, he]
      · intro nullifier_account haccount
        constructor
        · intro e he
          rw [hred]
          simp only [executeNullifierChecks, hL, hnode, haccount, he]
        · intro out hout
          obtain ⟨last', leaf_key', leaf_value', acct', hlast', hnode', _, _,
            hver', _, _⟩ := execute_ok_inv P input out hout
          rw [hL] at hlast'
          injection hlast' with hlast'
          subst hlast'
          rw [hnode] at hnode'
          injection hnode' with hnode'
          injection hnode' with _ hval
          subst hval
          exact hver'

/-- Witness for C6: with primitives whose decoder returns a `Branch`, the
executor reports the nullifier account as missing. -/
theorem C6_nullifier_account_leaf_witness :
    execute_wormhole_program branchPrims sampleInput =
      ProgResult.err WormholeProgramError.NullifierAccountMissing := by
  obtain ⟨last_node_encoded, hL, hbranch, _⟩ :=
    C6_nullifier_account_leaf branchPrims sampleInput
      (by decide) (by decide) (by decide) (by decide)
      (fun _ => ⟨rfl, rfl⟩) rfl (by decide)
  have hlast : last_node_encoded = [0] := by
    have : some ([0] : List Nat) = some last_node_encoded :=
      (show sampleInput.nullifier_account_proof.getLast? =
        some [0] from rfl).symm.trans hL
    injection this with h'
    exact h'.symm
  subst hlast
  exact hbranch (TrieNode.Branch [] none) rfl rfl

end Wormhole
